import Mathlib

/-!
Verification of the Brightbox compute driver (libcloud) against its
natural-language specification.

The driver normalizes provider JSON payloads into canonical entities
(Node, NodeImage, NodeSize, NodeLocation), builds the create-node request
payload, and classifies mutation responses by HTTP status code.  Parsed
JSON is embedded as the inductive type `Json`; Python dict payloads are
association lists with first-match lookup (JSON objects have unique keys);
a Python exception (KeyError / TypeError) is `none` in `Option`.
-/

namespace Brightbox

/-- Parsed JSON value, as handed to the driver by the connection layer. -/
inductive Json : Type where
  | null : Json
  | bool : Bool → Json
  | num : Int → Json
  | str : String → Json
  | arr : List Json → Json
  | obj : List (String × Json) → Json

/-- Python `d[k]` / `k in d` lookup on a dict, modelled as first-match
lookup on an association list. -/
def dictGet {α : Type} : List (String × α) → String → Option α
  | [], _ => none
  | (k, v) :: rest, key => if k = key then some v else dictGet rest key

/-- Python `d[k] = v`: replace the value in place when the key exists
(a dict holds each key at most once, so replacing the first occurrence is
exact), append the pair otherwise. -/
def dictSet {α : Type} : List (String × α) → String → α → List (String × α)
  | [], k, v => [(k, v)]
  | (k0, v0) :: rest, k, v =>
      if k0 = k then (k, v) :: rest else (k0, v0) :: dictSet rest k v

/-- Python `x is None` identity test against the JSON null. -/
def Json.isNull : Json → Bool
  | .null => true
  | _ => false

/-- The module-level helper `_extract(d, keys)`, literally
`dict((k, d[k]) for k in keys if k in d)`: the keys of `keys` that occur
in `d`, paired with their values, in the order of `keys`. -/
def extract {α : Type} (d : List (String × α)) (keys : List String) :
    List (String × α) :=
  keys.filterMap (fun k => (dictGet d k).map (fun v => (k, v)))

/-- Substring test on character lists, for the Python expression
`key in s` when `s` is a string. -/
def charsContain (needle : List Char) : List Char → Bool
  | [] => needle.isEmpty
  | c :: rest => needle.isPrefixOf (c :: rest) || charsContain needle rest

/-- Python `==` between a JSON value and the string `key` (used by `in`
on a list): true exactly when the value is that string. -/
def eqStrKey (key : String) : Json → Bool
  | .str s => s == key
  | _ => false

/-- Python `key in v`: dict membership on keys, substring test on a
string, element equality on a list; TypeError (`none`) otherwise. -/
def pyContains (key : String) : Json → Option Bool
  | .obj d => some (d.any (fun p => p.1 == key))
  | .str s => some (charsContain key.toList s.toList)
  | .arr xs => some (xs.any (eqStrKey key))
  | _ => none

/-- Python `v[key]` with a string subscript: dict lookup (KeyError is
`none`); TypeError (`none`) on every non-dict value. -/
def pyIndex (key : String) : Json → Option Json
  | .obj d => dictGet d key
  | _ => none

/-- Python `for x in v`: a list yields its elements, a string its
characters, a dict its keys (insertion order); TypeError otherwise. -/
def pyIter : Json → Option (List Json)
  | .arr xs => some xs
  | .str s => some (s.toList.map (fun c => Json.str (String.singleton c)))
  | .obj d => some (d.map (fun p => Json.str p.1))
  | _ => none

/-- The comprehension `[x[key] for x in xs if key in x]` over an already
iterated sequence: collect the value at `key` from every element that
contains it, in order, propagating any TypeError. -/
def collectIfPresent (key : String) : List Json → Option (List Json)
  | [] => some []
  | x :: rest =>
    match pyContains key x with
    | none => none
    | some b =>
      if b then
        match pyIndex key x, collectIfPresent key rest with
        | some v, some tail => some (v :: tail)
        | _, _ => none
      else collectIfPresent key rest

/-- The comprehension `[x[key] for x in xs]` (no guard): every element
must yield a value at `key`, else the whole comprehension raises. -/
def collectIndex (key : String) : List Json → Option (List Json)
  | [] => some []
  | x :: rest =>
    match pyIndex key x, collectIndex key rest with
    | some v, some tail => some (v :: tail)
    | _, _ => none

/-- Canonical lifecycle states of the multi-cloud abstraction. -/
inductive NodeState : Type where
  | RUNNING : NodeState
  | REBOOTING : NodeState
  | TERMINATED : NodeState
  | PENDING : NodeState
  | UNKNOWN : NodeState
deriving DecidableEq

/-- The driver's `NODE_STATE_MAP` dict: provider status string to
canonical state; a string outside the table is a KeyError (`none`). -/
def NODE_STATE_MAP : String → Option NodeState
  | "creating" => some NodeState.PENDING
  | "active" => some NodeState.RUNNING
  | "inactive" => some NodeState.UNKNOWN
  | "deleting" => some NodeState.UNKNOWN
  | "deleted" => some NodeState.TERMINATED
  | "failed" => some NodeState.UNKNOWN
  | "unavailable" => some NodeState.UNKNOWN
  | _ => none

/-- The subscript `NODE_STATE_MAP[data['status']]`: the dict's keys are
strings, so a non-string status value is a KeyError as well. -/
def lookupState : Json → Option NodeState
  | .str s => NODE_STATE_MAP s
  | _ => none

mutual
/-- Extension-bag value of an image: either a raw JSON field value or,
for a normalized ancestor, a nested image. -/
inductive ExtraVal : Type where
  | json : Json → ExtraVal
  | image : NodeImage → ExtraVal
/-- Canonical image entity (id, name, extension bag). -/
inductive NodeImage : Type where
  | mk : Json → Json → List (String × ExtraVal) → NodeImage
end

/-- Identifier of a canonical image. -/
def NodeImage.id : NodeImage → Json
  | .mk i _ _ => i

/-- Display name of a canonical image. -/
def NodeImage.name : NodeImage → Json
  | .mk _ n _ => n

/-- Extension bag of a canonical image. -/
def NodeImage.extra : NodeImage → List (String × ExtraVal)
  | .mk _ _ e => e

/-- Canonical size (compute flavor) entity, as built by `_to_size`. -/
structure NodeSize : Type where
  id : Json
  name : Json
  ram : Json
  disk : Json
  bandwidth : Json
  price : Json

/-- Canonical location entity, as built by `_to_location`. -/
structure NodeLocation : Type where
  id : Json
  name : Json
  country : String

/-- Canonical node entity, as built by `_to_node`. -/
structure Node : Type where
  id : Json
  name : Json
  state : NodeState
  private_ips : List Json
  public_ips : List Json
  size : NodeSize
  image : NodeImage
  extra : List (String × Json)

/-- Extension-bag allow-list of `_to_node`. -/
def nodeAllowList : List String :=
  ["fqdn", "status", "interfaces", "zone", "snapshots", "server_groups",
   "hostname", "started_at", "created_at", "deleted_at"]

/-- Extension-bag allow-list of `_to_image`. -/
def imageAllowList : List String :=
  ["ancestor", "arch", "compatibility_mode", "created_at", "description",
   "disk_size", "min_ram", "official", "owner", "public", "source",
   "source_type", "status", "username", "virtual_size", "licence_name"]

/-- Wrap every extracted raw field value as a bag value. -/
def extraJson (l : List (String × Json)) : List (String × ExtraVal) :=
  l.map (fun p => (p.1, ExtraVal.json p.2))

/-- The conditional assignment `extra_data['ancestor'] = self._to_image(...)`:
store the normalized ancestor back into the bag when one was produced. -/
def applyAncestor (bag : List (String × ExtraVal)) :
    Option NodeImage → List (String × ExtraVal)
  | none => bag
  | some img => dictSet bag "ancestor" (ExtraVal.image img)

mutual
/-- The driver's `_to_image`: evaluate the guarded recursive call on the
`ancestor` entry through `ancestorEval`, then read `id` and `name`
(KeyError when absent) and build the image with the extension bag
extracted by `_extract` over the image allow-list, with the normalized
ancestor stored back over the raw value when one was produced. -/
def toImage : Json → Option NodeImage
  | Json.obj d =>
    match ancestorEval d with
    | none => none
    | some repl =>
      match dictGet d "id", dictGet d "name" with
      | some i, some n =>
          some (NodeImage.mk i n
            (applyAncestor (extraJson (extract d imageAllowList)) repl))
      | _, _ => none
  | _ => none

/-- Evaluation of `if 'ancestor' in data and data['ancestor'] is not None`
with its recursive `_to_image` call, walking the payload for the first
`ancestor` entry: `some none` means no replacement happens (key absent, or
value null), `some (some img)` means the recursively normalized ancestor
replaces the raw value, `none` means the recursive normalization raised. -/
def ancestorEval : List (String × Json) → Option (Option NodeImage)
  | [] => some none
  | (k, v) :: rest =>
      if k = "ancestor" then
        if v.isNull then some none
        else
          match toImage v with
          | some img => some (some img)
          | none => none
      else ancestorEval rest
end

/-- The driver's `_to_size`: copy id, name, ram and disk_size (KeyError
when a key is absent); bandwidth and price are the literal integer 0. -/
def toSize : Json → Option NodeSize
  | Json.obj d =>
    match dictGet d "id", dictGet d "name", dictGet d "ram",
          dictGet d "disk_size" with
    | some i, some n, some r, some ds =>
        some ⟨i, n, r, ds, Json.num 0, Json.num 0⟩
    | _, _, _, _ => none
  | _ => none

/-- The driver's `_to_location`: copy id and handle; the country is the
hardcoded constant string GB. -/
def toLocation : Json → Option NodeLocation
  | Json.obj d =>
    match dictGet d "id", dictGet d "handle" with
    | some i, some h => some ⟨i, h, "GB"⟩
    | _, _ => none
  | _ => none

/-- The driver's `_to_node`: read the required keys (KeyError when one is
absent), map the status through `NODE_STATE_MAP`, collect private IPs from
interfaces carrying `ipv4_address`, public IPs as the cloud-IP `public_ip`
values followed by the interface `ipv6_address` values, normalize the
nested server_type and image, and extract the extension bag over the node
allow-list. -/
def toNode : Json → Option Node
  | Json.obj d =>
    match dictGet d "id", dictGet d "name", dictGet d "status",
          dictGet d "interfaces", dictGet d "cloud_ips",
          dictGet d "server_type", dictGet d "image" with
    | some i, some n, some st, some ifs, some cips, some stype, some img =>
      match lookupState st, pyIter ifs, pyIter cips with
      | some state, some ifaceList, some cipList =>
        match collectIfPresent "ipv4_address" ifaceList,
              collectIndex "public_ip" cipList,
              collectIfPresent "ipv6_address" ifaceList,
              toSize stype, toImage img with
        | some priv, some pubc, some pub6, some sz, some im =>
            some { id := i, name := n, state := state,
                   private_ips := priv,
                   public_ips := pubc ++ pub6,
                   size := sz, image := im,
                   extra := extract d nodeAllowList }
        | _, _, _, _, _ => none
      | _, _, _ => none
    | _, _, _, _, _, _, _ => none
  | _ => none

/-- HTTP 202, `httplib.ACCEPTED`. -/
def ACCEPTED : Nat := 202

/-- HTTP 200, `httplib.OK`. -/
def OK : Nat := 200

/-- The request payload built by `create_node`: the dict literal
`{name, server_type: size.id, image: image.id, user_data: ''}` followed by
the assignment of `zone` to the location's id when a location was supplied
and to the empty string otherwise. -/
def create_node_data (name : Json) (size : NodeSize) (image : NodeImage)
    (location : Option NodeLocation) : List (String × Json) :=
  let data : List (String × Json) :=
    [("name", name), ("server_type", size.id), ("image", image.id),
     ("user_data", Json.str "")]
  match location with
  | some loc => dictSet data "zone" loc.id
  | none => dictSet data "zone" (Json.str "")

/-- The result of `create_node`: the JSON body of the response to the
POST is normalized by `_to_node` and returned (the connection layer, an
external collaborator, has already classified the HTTP status). -/
def create_node (name : Json) (size : NodeSize) (image : NodeImage)
    (location : Option NodeLocation) (responseBody : Json) : Option Node :=
  toNode responseBody

/-- The boolean result of `destroy_node`: response status equals 202. -/
def destroy_node (status : Nat) : Bool := status == ACCEPTED

/-- The boolean result of `ex_map_cloud_ip`: response status equals 202. -/
def ex_map_cloud_ip (status : Nat) : Bool := status == ACCEPTED

/-- The boolean result of `ex_unmap_cloud_ip`: response status equals 202. -/
def ex_unmap_cloud_ip (status : Nat) : Bool := status == ACCEPTED

/-- The boolean result of `ex_destroy_cloud_ip`: response status equals 200. -/
def ex_destroy_cloud_ip (status : Nat) : Bool := status == OK

/-! Concrete payloads in the shape of the provider's documented JSON
schemas, mirroring the repository's test fixtures; used to evaluate the
normalizers on closed inputs. -/

/-- A server_type payload. -/
def exServerType : List (String × Json) :=
  [("id", Json.str "typ-4nssg"), ("name", Json.str "Brightbox Nano Instance"),
   ("ram", Json.num 512), ("disk_size", Json.num 20480)]

/-- An image payload without an ancestor entry. -/
def exImagePayload : List (String × Json) :=
  [("id", Json.str "img-99q79"), ("name", Json.str "CentOS 5.5 server"),
   ("arch", Json.str "i686"), ("status", Json.str "available")]

/-- An image payload whose ancestor is a nested image object. -/
def exImageWithAncestor : List (String × Json) :=
  [("id", Json.str "img-child"), ("name", Json.str "child"),
   ("arch", Json.str "x86_64"),
   ("ancestor", Json.obj exImagePayload)]

/-- Interface payloads: one with both address families, one IPv4-only. -/
def exInterfaces : List (List (String × Json)) :=
  [[("ipv4_address", Json.str "10.74.210.210"),
    ("ipv6_address", Json.str "2a02:1348:14c:393a:24:19ff:fef0:e4ea")],
   [("ipv4_address", Json.str "10.240.228.234")]]

/-- A single cloud-IP payload. -/
def exCloudIps : List (List (String × Json)) :=
  [[("public_ip", Json.str "109.107.35.16")]]

/-- A full server payload, including a field outside every allow-list. -/
def exServer : List (String × Json) :=
  [("id", Json.str "srv-xvpn7"), ("name", Json.str "web"),
   ("status", Json.str "active"),
   ("interfaces", Json.arr (exInterfaces.map Json.obj)),
   ("cloud_ips", Json.arr (exCloudIps.map Json.obj)),
   ("server_type", Json.obj exServerType),
   ("image", Json.obj exImagePayload),
   ("fqdn", Json.str "srv-xvpn7.gb1.brightbox.com"),
   ("bogus", Json.num 7)]

/-- The node normalized from `exServer`. -/
def exNode : Node := (toNode (Json.obj exServer)).get (by rfl)

/-- The image normalized from `exImageWithAncestor`. -/
def exImg : NodeImage := (toImage (Json.obj exImageWithAncestor)).get (by rfl)

/-! Helper lemmas about the dictionary operations. -/

theorem dictGet_extract {α : Type} (d : List (String × α)) (keys : List String)
    (k : String) :
    dictGet (extract d keys) k = if k ∈ keys then dictGet d k else none := by
  induction keys with
  | nil => simp [extract, dictGet]
  | cons k' rest ih =>
    simp only [extract, List.filterMap_cons] at *
    cases h : dictGet d k' with
    | none =>
      by_cases hk : k = k'
      · subst hk
        simp [ih, h]
      · simp [ih, List.mem_cons, hk]
    | some v =>
      by_cases hk : k = k'
      · subst hk
        simp [dictGet, h]
      · simp [dictGet, ih, List.mem_cons, hk, Ne.symm hk]

theorem dictGet_isSome_any {α : Type} (d : List (String × α)) (key : String) :
    (dictGet d key).isSome = d.any (fun p => p.1 == key) := by
  induction d with
  | nil => simp [dictGet]
  | cons p rest ih =>
    obtain ⟨k, v⟩ := p
    by_cases hk : k = key
    · subst hk; simp [dictGet]
    · simp [dictGet, hk, ih]

theorem dictGet_extraJson (l : List (String × Json)) (k : String) :
    dictGet (extraJson l) k = (dictGet l k).map ExtraVal.json := by
  induction l with
  | nil => simp [extraJson, dictGet]
  | cons p rest ih =>
    obtain ⟨k', v⟩ := p
    by_cases hk : k' = k
    · subst hk; simp [extraJson, dictGet]
    · simp [extraJson, dictGet, hk] at *
      exact ih

theorem dictGet_dictSet_self {α : Type} (l : List (String × α)) (k : String)
    (v : α) : dictGet (dictSet l k v) k = some v := by
  induction l with
  | nil => simp [dictSet, dictGet]
  | cons p rest ih =>
    obtain ⟨k0, v0⟩ := p
    by_cases h0 : k0 = k
    · simp [dictSet, dictGet, h0]
    · simp [dictSet, dictGet, h0, ih]

theorem dictGet_dictSet_ne {α : Type} (l : List (String × α)) (k k' : String)
    (v : α) (hne : k' ≠ k) : dictGet (dictSet l k v) k' = dictGet l k' := by
  induction l with
  | nil => simp [dictSet, dictGet, Ne.symm hne]
  | cons p rest ih =>
    obtain ⟨k0, v0⟩ := p
    by_cases h0 : k0 = k
    · subst h0
      simp [dictSet, dictGet, Ne.symm hne]
    · by_cases h1 : k0 = k'
      · subst h1
        simp [dictSet, dictGet, h0]
      · simp [dictSet, dictGet, h0, h1, ih]

theorem collectIfPresent_objs (key : String)
    (xs : List (List (String × Json))) :
    collectIfPresent key (xs.map Json.obj) =
      some (xs.filterMap (fun x => dictGet x key)) := by
  induction xs with
  | nil => simp [collectIfPresent]
  | cons x rest ih =>
    simp only [List.map_cons, collectIfPresent, pyContains]
    cases h : dictGet x key with
    | none =>
      have hany : x.any (fun p => p.1 == key) = false := by
        have hs := dictGet_isSome_any x key
        rw [h] at hs
        simpa using hs.symm
      simp [hany, ih, List.filterMap_cons, h]
    | some v =>
      have hany : x.any (fun p => p.1 == key) = true := by
        have hs := dictGet_isSome_any x key
        rw [h] at hs
        simpa using hs.symm
      simp [hany, pyIndex, h, ih, List.filterMap_cons]

theorem collectIndex_objs (key : String) (xs : List (List (String × Json)))
    (l : List Json) (h : collectIndex key (xs.map Json.obj) = some l) :
    l = xs.filterMap (fun x => dictGet x key) ∧
      ∀ x ∈ xs, (dictGet x key).isSome := by
  induction xs generalizing l with
  | nil =>
    simp only [List.map_nil, collectIndex] at h
    injection h with h
    simp [h.symm]
  | cons x rest ih =>
    simp only [List.map_cons, collectIndex, pyIndex] at h
    cases hx : dictGet x key with
    | none => rw [hx] at h; simp at h
    | some v =>
      rw [hx] at h
      cases hr : collectIndex key (rest.map Json.obj) with
      | none => rw [hr] at h; simp at h
      | some tail =>
        rw [hr] at h
        injection h with h
        obtain ⟨htail, hall⟩ := ih tail hr
        constructor
        · rw [← h, htail, List.filterMap_cons, hx]
        · intro y hy
          rcases List.mem_cons.mp hy with hy | hy
          · subst hy; simp [hx]
          · exact hall y hy

theorem ancestorEval_eq (d : List (String × Json)) :
    ancestorEval d =
      match dictGet d "ancestor" with
      | none => some none
      | some v =>
        if v.isNull then some none
        else
          match toImage v with
          | some img => some (some img)
          | none => none := by
  induction d with
  | nil => simp [ancestorEval, dictGet]
  | cons p rest ih =>
    obtain ⟨k, v⟩ := p
    by_cases hk : k = "ancestor"
    · subst hk
      simp [ancestorEval, dictGet]
    · simp only [ancestorEval, dictGet, hk, if_false, ih]

theorem toImage_inv {d : List (String × Json)} {img : NodeImage}
    (h : toImage (Json.obj d) = some img) :
    ∃ repl i n, ancestorEval d = some repl ∧ dictGet d "id" = some i ∧
      dictGet d "name" = some n ∧
      img = NodeImage.mk i n
        (applyAncestor (extraJson (extract d imageAllowList)) repl) := by
  simp only [toImage] at h
  split at h
  · exact absurd h (by simp)
  · split at h
    · injection h with h
      exact ⟨_, _, _, by assumption, by assumption, by assumption, h.symm⟩
    · exact absurd h (by simp)

theorem toNode_inv {d : List (String × Json)} {node : Node}
    (h : toNode (Json.obj d) = some node) :
    ∃ i n st ifs cips stype img state ifaceList cipList priv pubc pub6 sz im,
      dictGet d "id" = some i ∧ dictGet d "name" = some n ∧
      dictGet d "status" = some st ∧ dictGet d "interfaces" = some ifs ∧
      dictGet d "cloud_ips" = some cips ∧
      dictGet d "server_type" = some stype ∧
      dictGet d "image" = some img ∧ lookupState st = some state ∧
      pyIter ifs = some ifaceList ∧ pyIter cips = some cipList ∧
      collectIfPresent "ipv4_address" ifaceList = some priv ∧
      collectIndex "public_ip" cipList = some pubc ∧
      collectIfPresent "ipv6_address" ifaceList = some pub6 ∧
      toSize stype = some sz ∧ toImage img = some im ∧
      node = { id := i, name := n, state := state, private_ips := priv,
               public_ips := pubc ++ pub6, size := sz, image := im,
               extra := extract d nodeAllowList } := by
  simp only [toNode] at h
  split at h
  · split at h
    · split at h
      · injection h with h
        exact ⟨_, _, _, _, _, _, _, _, _, _, _, _, _, _, _, by assumption,
          by assumption, by assumption, by assumption, by assumption,
          by assumption, by assumption, by assumption, by assumption,
          by assumption, by assumption, by assumption, by assumption,
          by assumption, by assumption, h.symm⟩
      · exact absurd h (by simp)
    · exact absurd h (by simp)
  · exact absurd h (by simp)

theorem toSize_inv {d : List (String × Json)} {sz : NodeSize}
    (h : toSize (Json.obj d) = some sz) :
    ∃ i n r ds, dictGet d "id" = some i ∧ dictGet d "name" = some n ∧
      dictGet d "ram" = some r ∧ dictGet d "disk_size" = some ds ∧
      sz = ⟨i, n, r, ds, Json.num 0, Json.num 0⟩ := by
  simp only [toSize] at h
  split at h
  · injection h with h
    exact ⟨_, _, _, _, by assumption, by assumption, by assumption,
      by assumption, h.symm⟩
  · exact absurd h (by simp)

/-! Claim theorems. -/

/-- C2: the status mapper sends each documented provider status string to
exactly the canonical state of the table (creating to PENDING, active to
RUNNING, inactive, deleting, failed and unavailable to UNKNOWN, deleted to
TERMINATED), and every string outside the documented set fails with a
propagated KeyError rather than any default state. -/
theorem c2_status_map :
    NODE_STATE_MAP "creating" = some NodeState.PENDING ∧
    NODE_STATE_MAP "active" = some NodeState.RUNNING ∧
    NODE_STATE_MAP "inactive" = some NodeState.UNKNOWN ∧
    NODE_STATE_MAP "deleting" = some NodeState.UNKNOWN ∧
    NODE_STATE_MAP "deleted" = some NodeState.TERMINATED ∧
    NODE_STATE_MAP "failed" = some NodeState.UNKNOWN ∧
    NODE_STATE_MAP "unavailable" = some NodeState.UNKNOWN ∧
    ∀ s : String,
      s ∉ (["creating", "active", "inactive", "deleting", "deleted",
            "failed", "unavailable"] : List String) →
      NODE_STATE_MAP s = none := by
  refine ⟨rfl, rfl, rfl, rfl, rfl, rfl, rfl, ?_⟩
  intro s hs
  unfold NODE_STATE_MAP
  split <;> simp_all

/-- C2 witness: the table and the failure branch evaluated at concrete
status strings. -/
theorem c2_status_map_witness :
    ("resizing" ∉ (["creating", "active", "inactive", "deleting", "deleted",
      "failed", "unavailable"] : List String)) ∧
    NODE_STATE_MAP "resizing" = none :=
  ⟨by decide, c2_status_map.2.2.2.2.2.2.2 "resizing" (by decide)⟩

/-- C5: each boolean-returning mutation compares the response status to its
operation-specific success code and nothing else: destroy_node,
ex_map_cloud_ip and ex_unmap_cloud_ip succeed exactly on 202, while
ex_destroy_cloud_ip succeeds exactly on 200. -/
theorem c5_status_booleans (s : Nat) :
    (destroy_node s = true ↔ s = 202) ∧
    (ex_map_cloud_ip s = true ↔ s = 202) ∧
    (ex_unmap_cloud_ip s = true ↔ s = 202) ∧
    (ex_destroy_cloud_ip s = true ↔ s = 200) := by
  simp [destroy_node, ex_map_cloud_ip, ex_unmap_cloud_ip,
    ex_destroy_cloud_ip, ACCEPTED, OK]

/-- C5 witness: the four booleans evaluated at their success codes and at
a non-success code. -/
theorem c5_status_booleans_witness :
    destroy_node 202 = true ∧ ex_map_cloud_ip 202 = true ∧
    ex_unmap_cloud_ip 202 = true ∧ ex_destroy_cloud_ip 200 = true ∧
    destroy_node 200 = false ∧ ex_destroy_cloud_ip 202 = false :=
  ⟨(c5_status_booleans 202).1.mpr rfl,
   (c5_status_booleans 202).2.1.mpr rfl,
   (c5_status_booleans 202).2.2.1.mpr rfl,
   (c5_status_booleans 200).2.2.2.mpr rfl,
   by decide, by decide⟩

/-- C8: every size produced by the size normalizer has bandwidth and price
equal to the literal zero, set explicitly and never read from the input. -/
theorem c8_size_zero (j : Json) (sz : NodeSize) (h : toSize j = some sz) :
    sz.bandwidth = Json.num 0 ∧ sz.price = Json.num 0 := by
  cases j with
  | obj d =>
    obtain ⟨i, n, r, ds, hi, hn, hr, hds, hsz⟩ := toSize_inv h
    subst hsz
    exact ⟨rfl, rfl⟩
  | null => simp [toSize] at h
  | bool b => simp [toSize] at h
  | num n => simp [toSize] at h
  | str s => simp [toSize] at h
  | arr xs => simp [toSize] at h

/-- C8 witness: the size normalized from the concrete server_type payload
has zero bandwidth and zero price. -/
theorem c8_size_zero_witness :
    toSize (Json.obj exServerType) =
      some ⟨Json.str "typ-4nssg", Json.str "Brightbox Nano Instance",
            Json.num 512, Json.num 20480, Json.num 0, Json.num 0⟩ ∧
    (Json.num 0 = Json.num 0 ∧ Json.num 0 = Json.num 0) :=
  ⟨rfl, c8_size_zero (Json.obj exServerType) _ rfl⟩

/-- C9: every normalizer is deterministic, reading nothing but its input:
two runs of the same normalizer on the same JSON value give entities that
are equal (hence field-for-field equal). -/
theorem c9_determinism (j : Json) :
    (∀ a b : Node, toNode j = some a → toNode j = some b → a = b) ∧
    (∀ a b : NodeImage, toImage j = some a → toImage j = some b → a = b) ∧
    (∀ a b : NodeSize, toSize j = some a → toSize j = some b → a = b) ∧
    (∀ a b : NodeLocation,
      toLocation j = some a → toLocation j = some b → a = b) := by
  refine ⟨?_, ?_, ?_, ?_⟩ <;>
    · intro a b h1 h2
      rw [h1] at h2
      exact Option.some_injective _ h2

/-- C9 witness: determinism applied to the concrete server payload. -/
theorem c9_determinism_witness :
    toNode (Json.obj exServer) = some exNode ∧ exNode = exNode :=
  ⟨(Option.some_get _).symm,
   (c9_determinism (Json.obj exServer)).1 exNode exNode
     (Option.some_get _).symm (Option.some_get _).symm⟩

/-- C1: when a server payload's interfaces and cloud_ips are lists of
objects and the node normalizer succeeds, the node's public IPs are the
public_ip values of the cloud_ips entries in input order followed by the
ipv6_address values of the interfaces entries that carry that key in input
order, and its private IPs are the ipv4_address values of the interfaces
entries that carry that key in input order (every cloud_ips entry carries
a public_ip value, or normalization would have failed). -/
theorem c1_node_ip_order (d : List (String × Json))
    (ifs cips : List (List (String × Json))) (node : Node)
    (hifs : dictGet d "interfaces" = some (Json.arr (ifs.map Json.obj)))
    (hcips : dictGet d "cloud_ips" = some (Json.arr (cips.map Json.obj)))
    (h : toNode (Json.obj d) = some node) :
    node.public_ips =
      cips.filterMap (fun c => dictGet c "public_ip") ++
        ifs.filterMap (fun i => dictGet i "ipv6_address") ∧
    node.private_ips = ifs.filterMap (fun i => dictGet i "ipv4_address") ∧
    ∀ c ∈ cips, (dictGet c "public_ip").isSome := by
  obtain ⟨i, n, st, ifs0, cips0, stype, img, state, ifaceList, cipList, priv,
    pubc, pub6, sz, im, h1, h2, h3, h4, h5, h6, h7, h8, h9, h10, h11, h12,
    h13, h14, h15, hn⟩ := toNode_inv h
  rw [hifs] at h4
  injection h4 with h4
  rw [hcips] at h5
  injection h5 with h5
  subst h4
  subst h5
  simp only [pyIter] at h9 h10
  injection h9 with h9
  injection h10 with h10
  subst h9
  subst h10
  rw [collectIfPresent_objs] at h11 h13
  injection h11 with h11
  injection h13 with h13
  subst h11
  subst h13
  obtain ⟨hpubc, hall⟩ := collectIndex_objs _ _ _ h12
  subst hpubc
  subst hn
  exact ⟨rfl, rfl, hall⟩

/-- C1 witness: the IP ordering evaluated on the concrete server payload. -/
theorem c1_node_ip_order_witness :
    dictGet exServer "interfaces" =
      some (Json.arr (exInterfaces.map Json.obj)) ∧
    dictGet exServer "cloud_ips" = some (Json.arr (exCloudIps.map Json.obj)) ∧
    toNode (Json.obj exServer) = some exNode ∧
    (exNode.public_ips =
      exCloudIps.filterMap (fun c => dictGet c "public_ip") ++
        exInterfaces.filterMap (fun i => dictGet i "ipv6_address") ∧
     exNode.private_ips =
       exInterfaces.filterMap (fun i => dictGet i "ipv4_address") ∧
     ∀ c ∈ exCloudIps, (dictGet c "public_ip").isSome) :=
  ⟨rfl, rfl, (Option.some_get _).symm,
   c1_node_ip_order exServer exInterfaces exCloudIps exNode rfl rfl
     (Option.some_get _).symm⟩

/-- C4: create_node builds exactly the payload name, server_type equal to
the size's id, image equal to the image's id, empty user_data, and a zone
entry that is the location's id when a location was supplied and the empty
string otherwise; the zone key is present in every payload; and the
response body is normalized by the node normalizer into the returned
node. -/
theorem c4_create_node_payload (name : Json) (size : NodeSize)
    (image : NodeImage) (location : Option NodeLocation) (body : Json) :
    create_node_data name size image location =
      [("name", name), ("server_type", size.id), ("image", image.id),
       ("user_data", Json.str ""),
       ("zone", match location with
         | some loc => loc.id
         | none => Json.str "")] ∧
    dictGet (create_node_data name size image location) "zone" =
      some (match location with
        | some loc => loc.id
        | none => Json.str "") ∧
    create_node name size image location body = toNode body := by
  cases location <;> exact ⟨rfl, rfl, rfl⟩

/-- C6: a key outside an entity's allow-list never appears in its
extension bag, for nodes and for images alike, even when the key is
present in the source payload. -/
theorem c6_allow_list (d : List (String × Json)) (k : String) :
    (∀ node, toNode (Json.obj d) = some node → k ∉ nodeAllowList →
      dictGet node.extra k = none) ∧
    (∀ img, toImage (Json.obj d) = some img → k ∉ imageAllowList →
      dictGet img.extra k = none) := by
  constructor
  · intro node h hk
    obtain ⟨i, n, st, ifs0, cips0, stype, img, state, ifaceList, cipList,
      priv, pubc, pub6, sz, im, h1, h2, h3, h4, h5, h6, h7, h8, h9, h10,
      h11, h12, h13, h14, h15, hn⟩ := toNode_inv h
    subst hn
    show dictGet (extract d nodeAllowList) k = none
    rw [dictGet_extract, if_neg hk]
  · intro img h hk
    obtain ⟨repl, i, n, hre, hi, hname, him⟩ := toImage_inv h
    subst him
    cases repl with
    | none =>
      show dictGet (extraJson (extract d imageAllowList)) k = none
      rw [dictGet_extraJson, dictGet_extract, if_neg hk]
      rfl
    | some aimg =>
      have hka : k ≠ "ancestor" := by
        rintro rfl
        exact hk (by simp [imageAllowList])
      show dictGet
        (dictSet (extraJson (extract d imageAllowList)) "ancestor"
          (ExtraVal.image aimg)) k = none
      rw [dictGet_dictSet_ne _ _ _ _ hka, dictGet_extraJson, dictGet_extract,
        if_neg hk]
      rfl

/-- C6 witness: the payload carries a key outside the node allow-list and
the normalized node's extension bag drops it. -/
theorem c6_allow_list_witness :
    toNode (Json.obj exServer) = some exNode ∧
    ("bogus" ∉ nodeAllowList) ∧
    dictGet exNode.extra "bogus" = none :=
  ⟨(Option.some_get _).symm, by decide,
   (c6_allow_list exServer "bogus").1 exNode (Option.some_get _).symm
     (by decide)⟩

/-- C7: a server payload from which a required key (id, name, status,
interfaces, cloud_ips, server_type or image) is absent makes the node
normalizer fail with a propagated error, and a server_type payload from
which id, name, ram or disk_size is absent makes the size normalizer fail;
no defaulted entity is returned. -/
theorem c7_missing_required_key (d : List (String × Json)) :
    ((dictGet d "id" = none ∨ dictGet d "name" = none ∨
      dictGet d "status" = none ∨ dictGet d "interfaces" = none ∨
      dictGet d "cloud_ips" = none ∨ dictGet d "server_type" = none ∨
      dictGet d "image" = none) → toNode (Json.obj d) = none) ∧
    ((dictGet d "id" = none ∨ dictGet d "name" = none ∨
      dictGet d "ram" = none ∨ dictGet d "disk_size" = none) →
      toSize (Json.obj d) = none) := by
  constructor
  · intro hmiss
    cases h : toNode (Json.obj d) with
    | none => rfl
    | some node =>
      obtain ⟨i, n, st, ifs0, cips0, stype, img, state, ifaceList, cipList,
        priv, pubc, pub6, sz, im, h1, h2, h3, h4, h5, h6, h7, h8, h9, h10,
        h11, h12, h13, h14, h15, hn⟩ := toNode_inv h
      rcases hmiss with hm | hm | hm | hm | hm | hm | hm <;> simp_all
  · intro hmiss
    cases h : toSize (Json.obj d) with
    | none => rfl
    | some sz =>
      obtain ⟨i, n, r, ds, h1, h2, h3, h4, hsz⟩ := toSize_inv h
      rcases hmiss with hm | hm | hm | hm <;> simp_all

/-- C7 witness: the empty payload is missing every required key and both
normalizers fail on it. -/
theorem c7_missing_required_key_witness :
    dictGet ([] : List (String × Json)) "id" = none ∧
    toNode (Json.obj []) = none ∧ toSize (Json.obj []) = none :=
  ⟨rfl, (c7_missing_required_key []).1 (Or.inl rfl),
   (c7_missing_required_key []).2 (Or.inl rfl)⟩

/-- C3 counterexample: an image payload with no ancestor key normalizes
successfully to an image whose extension bag has no ancestor entry at all,
not the null ancestor entry the claim requires for an absent ancestor. -/
theorem c3_absent_ancestor_counterexample :
    (toImage (Json.obj exImagePayload)).map
      (fun img => dictGet img.extra "ancestor") = some none ∧
    (toImage (Json.obj exImagePayload)).map
      (fun img => dictGet img.extra "ancestor") ≠
      some (some (ExtraVal.json Json.null)) := by
  refine ⟨rfl, fun hcontra => ?_⟩
  exact Option.noConfusion (Option.some_injective _
    ((rfl : (toImage (Json.obj exImagePayload)).map
        (fun img => dictGet img.extra "ancestor") = some none).symm.trans
      hcontra))

/-- C3 (amended): when the ancestor field is present and non-null and the
image normalizer succeeds, the extension bag's ancestor entry is the fully
normalized nested image, replacing the raw value; when the ancestor field
is present and null the bag's ancestor entry is the null value; when the
ancestor field is absent the bag has no ancestor entry at all; and a null
or absent ancestor never makes normalization fail when id and name are
present. -/
theorem c3_ancestor_normalization (d : List (String × Json)) :
    (∀ a img, dictGet d "ancestor" = some a → a.isNull = false →
      toImage (Json.obj d) = some img →
      ∃ aimg, toImage a = some aimg ∧
        dictGet img.extra "ancestor" = some (ExtraVal.image aimg)) ∧
    (∀ img, dictGet d "ancestor" = some Json.null →
      toImage (Json.obj d) = some img →
      dictGet img.extra "ancestor" = some (ExtraVal.json Json.null)) ∧
    (∀ img, dictGet d "ancestor" = none →
      toImage (Json.obj d) = some img →
      dictGet img.extra "ancestor" = none) ∧
    (∀ i n, dictGet d "id" = some i → dictGet d "name" = some n →
      (dictGet d "ancestor" = none ∨ dictGet d "ancestor" = some Json.null) →
      (toImage (Json.obj d)).isSome = true) := by
  refine ⟨?_, ?_, ?_, ?_⟩
  · intro a img ha hnull h
    obtain ⟨repl, i, n, hre, hi, hn, him⟩ := toImage_inv h
    subst him
    rw [ancestorEval_eq, ha] at hre
    simp only [hnull, Bool.false_eq_true, if_false] at hre
    cases hta : toImage a with
    | none => rw [hta] at hre; simp at hre
    | some aimg =>
      rw [hta] at hre
      injection hre with hre
      subst hre
      refine ⟨aimg, rfl, ?_⟩
      show dictGet
        (applyAncestor (extraJson (extract d imageAllowList)) (some aimg))
        "ancestor" = _
      simp only [applyAncestor]
      rw [dictGet_dictSet_self]
  · intro img ha h
    obtain ⟨repl, i, n, hre, hi, hn, him⟩ := toImage_inv h
    subst him
    rw [ancestorEval_eq, ha] at hre
    simp only [Json.isNull, if_true] at hre
    injection hre with hre
    subst hre
    show dictGet (applyAncestor (extraJson (extract d imageAllowList)) none)
      "ancestor" = _
    simp only [applyAncestor]
    rw [dictGet_extraJson, dictGet_extract,
      if_pos (by simp [imageAllowList]), ha]
    rfl
  · intro img ha h
    obtain ⟨repl, i, n, hre, hi, hn, him⟩ := toImage_inv h
    subst him
    rw [ancestorEval_eq, ha] at hre
    injection hre with hre
    subst hre
    show dictGet (applyAncestor (extraJson (extract d imageAllowList)) none)
      "ancestor" = _
    simp only [applyAncestor]
    rw [dictGet_extraJson, dictGet_extract,
      if_pos (by simp [imageAllowList]), ha]
    rfl
  · intro i n hi hn hanc
    have he : ancestorEval d = some none := by
      rw [ancestorEval_eq]
      rcases hanc with ha | ha <;> simp [ha, Json.isNull]
    simp [toImage, he, hi, hn]

/-- C3 witness: the amended claim applied to a concrete payload whose
ancestor is a nested image object. -/
theorem c3_ancestor_normalization_witness :
    dictGet exImageWithAncestor "ancestor" = some (Json.obj exImagePayload) ∧
    (Json.obj exImagePayload).isNull = false ∧
    toImage (Json.obj exImageWithAncestor) = some exImg ∧
    (∃ aimg, toImage (Json.obj exImagePayload) = some aimg ∧
      dictGet exImg.extra "ancestor" = some (ExtraVal.image aimg)) :=
  ⟨rfl, rfl, (Option.some_get _).symm,
   (c3_ancestor_normalization exImageWithAncestor).1
     (Json.obj exImagePayload) exImg rfl rfl (Option.some_get _).symm⟩

/-- C10: the key set of a produced entity's extension bag is exactly the
intersection of its allow-list with the keys of the payload — an
allow-listed key absent from the payload yields no bag entry, no null
placeholder — and every bag value is the verbatim payload value except the
recursively normalized ancestor of an image. -/
theorem c10_extension_bag_keys (d : List (String × Json)) (k : String) :
    (∀ node, toNode (Json.obj d) = some node →
      ((dictGet node.extra k).isSome ↔
        k ∈ nodeAllowList ∧ (dictGet d k).isSome) ∧
      (k ∈ nodeAllowList → dictGet node.extra k = dictGet d k)) ∧
    (∀ img, toImage (Json.obj d) = some img →
      ((dictGet img.extra k).isSome ↔
        k ∈ imageAllowList ∧ (dictGet d k).isSome) ∧
      (k ∈ imageAllowList → k ≠ "ancestor" →
        dictGet img.extra k = (dictGet d k).map ExtraVal.json)) := by
  constructor
  · intro node h
    obtain ⟨i, n, st, ifs0, cips0, stype, img, state, ifaceList, cipList,
      priv, pubc, pub6, sz, im, h1, h2, h3, h4, h5, h6, h7, h8, h9, h10,
      h11, h12, h13, h14, h15, hn⟩ := toNode_inv h
    subst hn
    constructor
    · show (dictGet (extract d nodeAllowList) k).isSome ↔ _
      rw [dictGet_extract]
      by_cases hk : k ∈ nodeAllowList <;> simp [hk]
    · intro hk
      show dictGet (extract d nodeAllowList) k = _
      rw [dictGet_extract, if_pos hk]
  · intro img h
    obtain ⟨repl, i, n, hre, hi, hn2, him⟩ := toImage_inv h
    subst him
    cases repl with
    | none =>
      constructor
      · show (dictGet (applyAncestor (extraJson (extract d imageAllowList))
          none) k).isSome ↔ _
        simp only [applyAncestor]
        rw [dictGet_extraJson, dictGet_extract]
        by_cases hk : k ∈ imageAllowList <;> simp [hk]
      · intro hk _
        show dictGet (applyAncestor (extraJson (extract d imageAllowList))
          none) k = _
        simp only [applyAncestor]
        rw [dictGet_extraJson, dictGet_extract, if_pos hk]
    | some aimg =>
      have hanc : (dictGet d "ancestor").isSome := by
        rw [ancestorEval_eq] at hre
        cases ha : dictGet d "ancestor" with
        | none => rw [ha] at hre; simp at hre
        | some v => simp
      by_cases hk : k = "ancestor"
      · subst hk
        constructor
        · show (dictGet (applyAncestor (extraJson (extract d imageAllowList))
            (some aimg)) "ancestor").isSome ↔ _
          simp only [applyAncestor]
          rw [dictGet_dictSet_self]
          simp [hanc, imageAllowList]
        · intro _ hne
          exact absurd rfl hne
      · constructor
        · show (dictGet (applyAncestor (extraJson (extract d imageAllowList))
            (some aimg)) k).isSome ↔ _
          simp only [applyAncestor]
          rw [dictGet_dictSet_ne _ _ _ _ hk, dictGet_extraJson,
            dictGet_extract]
          by_cases hmem : k ∈ imageAllowList <;> simp [hmem]
        · intro hmem _
          show dictGet (applyAncestor (extraJson (extract d imageAllowList))
            (some aimg)) k = _
          simp only [applyAncestor]
          rw [dictGet_dictSet_ne _ _ _ _ hk, dictGet_extraJson,
            dictGet_extract, if_pos hmem]

/-- C10 witness: the bag-key characterization applied to the concrete
server payload at an allow-listed present key. -/
theorem c10_extension_bag_keys_witness :
    toNode (Json.obj exServer) = some exNode ∧
    (((dictGet exNode.extra "fqdn").isSome ↔
       "fqdn" ∈ nodeAllowList ∧ (dictGet exServer "fqdn").isSome) ∧
     ("fqdn" ∈ nodeAllowList →
       dictGet exNode.extra "fqdn" = dictGet exServer "fqdn")) :=
  ⟨(Option.some_get _).symm,
   (c10_extension_bag_keys exServer "fqdn").1 exNode (Option.some_get _).symm⟩

end Brightbox
